import Mathlib

/-
Shallow embedding of the video file-manager script (file_manager.py) of the
time-to-move repository, together with theorems settling the frozen claims
about its specification.

Modelling conventions:
 - a numpy frame (height x width x 3 array) is a list of rows, each row a list
   of pixels; a pixel value stands for the whole BGR triple (the channel axis
   is never inspected by any claim);
 - Python slicing (with negative indices and clamping) is reproduced exactly
   by pySlice / normIdx;
 - Python float arithmetic inside resize_frame_to_height is rendered in exact
   integer arithmetic (floor of target_height * w / h); pixel contents of a
   cv2.resize result are abstracted (interpolation is out of scope), its shape
   is exact;
 - cv2 decode/encode handles are explicit records with an `opened` flag, the
   environment maps paths to decodable videos and says whether the writer
   opens; releasing is idempotent, as in cv2.
-/

set_option autoImplicit false

namespace FileManager

/-! ## Pixels, frames, Python slicing -/

abbrev Pixel := Int

/-- A decoded frame: rows of pixels (numpy shape `(height, width)`; the channel
axis is abstracted into the pixel value). -/
abbrev Frame := List (List Pixel)

/-- numpy `frame.shape[0]` (height). -/
def shape0 (frame : Frame) : Nat := frame.length

/-- numpy `frame.shape[1]` (width), read off the first row; exact for the
rectangular arrays numpy actually stores whenever the frame has a row. -/
def shape1 (frame : Frame) : Nat := (frame.headD []).length

/-- Normalization of a Python slice endpoint for a sequence of length `n`:
negative indices count from the end, and endpoints clamp into `[0, n]`. -/
def normIdx (n : Nat) (i : Int) : Nat :=
  if i < 0 then ((n : Int) + i).toNat else min i.toNat n

/-- Python-style slice `l[i:j]` (step 1). -/
def pySlice {α : Type} (l : List α) (i j : Int) : List α :=
  let a := normIdx l.length i
  let b := normIdx l.length j
  (l.drop a).take (b - a)

/-! ## crop_frame (file_manager.py lines 180-202) -/

/-- The `crop_params` dict: keys x, y, w, h. -/
structure CropParams where
  x : Int
  y : Int
  w : Int
  h : Int
deriving DecidableEq

/-- Embedding of `crop_frame`.  The source comment says the special case is
"where w or h are 0", but the executed tests are `y + h == 0` and
`x + w == 0`; the embedding follows the executed code.  The two-axis numpy
slice `frame[y:y+h, x:x+w]` is a row slice followed by a column slice of every
selected row. -/
def crop_frame (frame : Frame) (crop_params : CropParams) : Frame :=
  let x := crop_params.x
  let y := crop_params.y
  let w := crop_params.w
  let h := crop_params.h
  -- Handle special cases (executed condition: y + h == 0, x + w == 0)
  let h := if y + h = 0 then (shape0 frame : Int) - y else h
  let w := if x + w = 0 then (shape1 frame : Int) - x else w
  -- frame[y:y+h, x:x+w]
  (pySlice frame y (y + h)).map (fun row => pySlice row x (x + w))

/-! ## resize_frame_to_height (lines 205-220) -/

/-- Shape-exact model of `cv2.resize(frame, (target_width, target_height))`:
the result has exactly the requested shape; interpolated pixel contents are
abstracted to zero (no claim inspects them). -/
def cv2_resize (frame : Frame) (target_width target_height : Nat) : Frame :=
  let _ := frame
  List.replicate target_height (List.replicate target_width 0)

/-- Embedding of `resize_frame_to_height`.  `aspect_ratio = w / h` raises
`ZeroDivisionError` when `h = 0`; `int(target_height * aspect_ratio)` is
rendered in exact arithmetic as `target_height * w / h` (floor);
`cv2.resize` rejects an empty target size. -/
def resize_frame_to_height (frame : Frame) (target_height : Nat) :
    Except String Frame :=
  let h := shape0 frame
  let w := shape1 frame
  if h = 0 then .error "ZeroDivisionError: division by zero"
  else
    let target_width := target_height * w / h
    if target_width = 0 ∨ target_height = 0 then
      .error "cv2.error: ssize.empty"
    else
      .ok (cv2_resize frame target_width target_height)

/-! ## String helpers for the pair matcher -/

/-- Whether the list starts with the given pattern. -/
def listStarts : List Char → List Char → Bool
  | _, [] => true
  | [], _ :: _ => false
  | a :: as, b :: bs => a = b && listStarts as bs

/-- Substring occurrence on character lists. -/
def hasSubAux : List Char → List Char → Bool
  | [], sub => listStarts [] sub
  | c :: rest, sub => listStarts (c :: rest) sub || hasSubAux rest sub

/-- Python `sub in hay` on strings. -/
def strHasSub (hay sub : String) : Bool :=
  hasSubAux hay.toList sub.toList

/-- Python `str.find(c)`: index of the first occurrence, or -1. -/
def py_find (s : String) (c : Char) : Int :=
  match s.toList.findIdx? (fun a => a = c) with
  | some i => (i : Int)
  | none => -1

/-- `pathlib.Path(name).stem`: the file name without its final suffix.  As in
pathlib, a suffix exists only when the last dot lies strictly inside the
name (neither leading nor trailing). -/
def stem (name : String) : String :=
  let cs := name.toList
  match cs.reverse.findIdx? (fun c => c = '.') with
  | none => name
  | some irev =>
    let i := cs.length - 1 - irev
    if 0 < i ∧ i < cs.length - 1 then String.mk (cs.take i) else name

/-- `s[:i]` for a string. -/
def pyTake (s : String) (i : Int) : String :=
  String.mk (pySlice s.toList 0 i)

/-- `str.lower()` (characterwise; the file names in play are ASCII). -/
def strLower (s : String) : String :=
  String.mk (s.toList.map Char.toLower)

/-- Embedding of the nested `normalize_name` (lines 564-566):
`name[:name.find(underscore)].lower()`. -/
def normalize_name (name : String) : String :=
  strLower (pyTake name (py_find name '_'))

/-! ## Insertion-ordered dicts (Python dict semantics on association lists) -/

/-- Insertion-ordered dict update: an existing key keeps its position, a new
key is appended (Python dict assignment). -/
def dictSet {α : Type} (m : List (String × α)) (k : String) (v : α) :
    List (String × α) :=
  match m with
  | [] => [(k, v)]
  | (k0, v0) :: rest =>
    if k0 = k then (k0, v) :: rest else (k0, v0) :: dictSet rest k v

/-- Python `k in m`. -/
def dictHas {α : Type} (m : List (String × α)) (k : String) : Bool :=
  m.any (fun kv => kv.1 == k)

/-- Python `m[k]` (as an option). -/
def dictGet {α : Type} (m : List (String × α)) (k : String) : Option α :=
  (m.find? (fun kv => kv.1 == k)).map (fun kv => kv.2)

/-- Python `del m[k]`. -/
def dictDel {α : Type} (m : List (String × α)) (k : String) :
    List (String × α) :=
  m.filter (fun kv => kv.1 != k)

/-! ## find_pairs_in_directory (lines 568-603) -/

/-- Role map of one normalized key: insertion-ordered dict from role name
("ours" / "warped" / "unknown") to a file name. -/
abbrev RoleMap := List (String × String)

/-- The `pairs` accumulator: insertion-ordered dict from normalized key to
role map. -/
abbrev Pairs := List (String × RoleMap)

/-- One iteration of the `for video in videos` loop of
`find_pairs_in_directory`.  A video file is modelled by its file name
(`video.name`); `video.stem` is `stem` of it.  Errors model the raised
`ValueError` (two unknown files at one key) and the `IndexError` that
`list(keys())[0]` would raise on an empty role map. -/
def pairStep (pairs : Pairs) (video : String) : Except String Pairs :=
  let video_name := normalize_name (stem video)
  if strHasSub video "our" then
    if !dictHas pairs video_name then
      .ok (dictSet pairs video_name [("ours", video)])
    else
      let m := (dictGet pairs video_name).getD []
      let m := dictSet m "ours" video
      let m := if dictHas m "unknown" then
          dictDel (dictSet m "warped" video) "unknown"
        else m
      .ok (dictSet pairs video_name m)
  else if strHasSub video "warped" then
    if !dictHas pairs video_name then
      .ok (dictSet pairs video_name [("warped", video)])
    else
      let m := (dictGet pairs video_name).getD []
      let m := dictSet m "warped" video
      let m := if dictHas m "unknown" then
          dictDel (dictSet m "ours" video) "unknown"
        else m
      .ok (dictSet pairs video_name m)
  else
    if !dictHas pairs video_name then
      .ok (dictSet pairs video_name [("unknown", video)])
    else
      let m := (dictGet pairs video_name).getD []
      match m with
      | [] => .error "IndexError: list index out of range"
      | (other_name, _) :: _ =>
        if other_name = "ours" then
          .ok (dictSet pairs video_name (dictSet m "warped" video))
        else if other_name = "warped" then
          .ok (dictSet pairs video_name (dictSet m "ours" video))
        else
          .error "ValueError: Found two unknown videos with the same name"

/-- Embedding of `find_pairs_in_directory`. -/
def find_pairs_in_directory (videos : List String) : Except String Pairs :=
  videos.foldlM pairStep []

/-- Files consumed into complete pairs by the caller (lines 616-632): a key
contributes its "warped" and "ours" files iff both slots are present. -/
def completePairVideos (pairs : Pairs) : List String :=
  pairs.foldl
    (fun acc kv =>
      if dictHas kv.2 "ours" && dictHas kv.2 "warped" then
        acc ++ [(dictGet kv.2 "warped").getD "", (dictGet kv.2 "ours").getD ""]
      else acc)
    []

/-- Unmatched files (line 638): inputs never consumed into a complete pair. -/
def unmatchedVideos (videos : List String) (pairs : Pairs) : List String :=
  videos.filter (fun v => !(completePairVideos pairs).contains v)

/-! ## Videos, decode handles, encode handle -/

/-- A decodable video source: frame rate (as read by `CAP_PROP_FPS`, already
truncated to an integer by the script) and its frames in order. -/
structure Video where
  fps : Int
  frames : List Frame
deriving DecidableEq

/-- A `cv2.VideoCapture` decode handle: the decoded video, the read cursor
(`CAP_PROP_POS_FRAMES`), and whether the handle is currently open. -/
structure Cap where
  video : Video
  pos : Nat
  opened : Bool
deriving DecidableEq

/-- `cap.read()`: yields the frame at the cursor and advances, or fails at
end of stream (cursor unchanged). -/
def Cap.read (cap : Cap) : Option Frame × Cap :=
  match cap.video.frames.get? cap.pos with
  | some frame => (some frame, { cap with pos := cap.pos + 1 })
  | none => (none, cap)

/-- `cap.release()`: idempotent close. -/
def Cap.release (cap : Cap) : Cap := { cap with opened := false }

/-- Number of decode handles currently open. -/
def countOpen (caps : List Cap) : Nat :=
  (caps.filter (fun cap => cap.opened)).length

/-- A `cv2.VideoWriter` encode handle. -/
structure Writer where
  path : String
  fourcc : String
  fps : Int
  width : Nat
  height : Nat
  opened : Bool
deriving DecidableEq

/-- `out.release()`: idempotent close of the encode handle. -/
def Writer.release (wtr : Writer) : Writer := { wtr with opened := false }

/-- The decode/encode environment: which paths open as videos
(`cv2.VideoCapture(path).isOpened()`), and whether writer creation succeeds
with the primary (`mp4v`) and the fallback (`XVID`) codec. -/
structure Env where
  videos : String → Option Video
  writerOk : Bool
  writerAltOk : Bool

/-! ## concatenate_videos_horizontally (lines 223-352) -/

/-- The capture-opening loop (lines 240-250).  On a path that fails to open,
every already opened capture is released and `False` is returned (the error
value carries the captures after that cleanup loop); otherwise the freshly
opened captures are returned in order. -/
def openAllCaps (env : Env) : List String → List Cap → Except (List Cap) (List Cap)
  | [], caps => .ok caps
  | video_path :: rest, caps =>
    match env.videos video_path with
    | none => .error (caps.map Cap.release)
    | some v => openAllCaps env rest (caps ++ [{ video := v, pos := 0, opened := true }])

/-- Outcome of the first-frame sizing loop (lines 261-276). -/
inductive FirstRead where
  /-- All first frames were read and resized; the per-video resized widths and
  the captures (each reset to frame 0) are returned. -/
  | ok (frame_widths : List Nat) (caps : List Cap)
  /-- Some `cap.read()` failed: the code returns `False` immediately from
  inside the `try` block, with the captures in their current states. -/
  | readFail (caps : List Cap)
  /-- `resize_frame_to_height` raised: the exception propagates to the
  `except` handler with the captures in their current states. -/
  | exc (caps : List Cap)

/-- The first-frame sizing loop: reads the first frame of every capture to
compute the resized widths, then resets each capture to frame 0. -/
def readFirstFrames (target_height : Nat) :
    List Cap → List Cap → List Nat → FirstRead
  | [], done, widths => .ok widths done
  | cap :: rest, done, widths =>
    match cap.read with
    | (none, cap2) => .readFail (done ++ cap2 :: rest)
    | (some frame, cap2) =>
      match resize_frame_to_height frame target_height with
      | .error _ => .exc (done ++ cap2 :: rest)
      | .ok resized_frame =>
        readFirstFrames target_height rest
          (done ++ [{ cap2 with pos := 0 }]) (widths ++ [shape1 resized_frame])

/-- Writer creation with codec fallback (lines 278-289): first `mp4v` at the
given path, then `XVID` at the path with `.mp4` replaced by `.avi`; `none`
when both fail to open. -/
def createWriter (env : Env) (output_path : String) (fps : Int)
    (total_width target_height : Nat) : Option Writer :=
  if env.writerOk then
    some { path := output_path, fourcc := "mp4v", fps := fps,
           width := total_width, height := target_height, opened := true }
  else if env.writerAltOk then
    some { path := output_path.replace ".mp4" ".avi", fourcc := "XVID",
           fps := fps, width := total_width, height := target_height,
           opened := true }
  else none

/-- numpy `np.concatenate(frames, axis=1)`: raises `ValueError` on an empty
list or when the heights (the non-concatenation axis) disagree; otherwise
joins the rows left to right. -/
def np_concatenate (frames : List Frame) : Except String Frame :=
  match frames with
  | [] => .error "ValueError: need at least one array to concatenate"
  | f :: rest =>
    if rest.all (fun g => shape0 g == shape0 f) then
      .ok (rest.foldl (fun acc g => List.zipWith (fun r s => r ++ s) acc g) f)
    else
      .error "ValueError: all the input array dimensions must match"

/-- Outcome of one lock-step tuple read (the inner `for` of lines 307-317):
either a full tuple of resized frames, an end-of-stream break (some read
failed; captures that already advanced on this tick stay advanced), or an
exception raised by resizing. -/
inductive TupleRead where
  | tuple (frames : List Frame) (caps : List Cap)
  | eos (caps : List Cap)
  | exc (caps : List Cap)

/-- The lock-step tuple read: reads one frame from every capture in order,
resizing each; stops at the first failed read. -/
def readTupleAux (target_height : Nat) :
    List Cap → List Cap → List Frame → TupleRead
  | [], done, frames => .tuple frames done
  | cap :: rest, done, frames =>
    match cap.read with
    | (none, cap2) => .eos (done ++ cap2 :: rest)
    | (some frame, cap2) =>
      match resize_frame_to_height frame target_height with
      | .error _ => .exc (done ++ cap2 :: rest)
      | .ok resized_frame =>
        readTupleAux target_height rest (done ++ [cap2]) (frames ++ [resized_frame])

/-- Outcome of the main `while True` loop (lines 300-335). -/
inductive LoopOut where
  /-- The loop broke on end of stream; carries the captures and the final
  `frame_count`. -/
  | done (caps : List Cap) (frame_count : Nat)
  /-- An exception (resize or concatenate) escaped the loop body. -/
  | exc (caps : List Cap) (frame_count : Nat)
  /-- Fuel exhausted; never reached for the fuel supplied below. -/
  | fuelOut (caps : List Cap) (frame_count : Nat)

/-- The main loop: per tick, read an aligned tuple, concatenate it
horizontally, write it once (twice with `duplicate_frames`).  Writes to the
encode handle always succeed; progress printing is observability only and is
omitted. -/
def loopRun (target_height : Nat) (duplicate_frames : Bool) :
    Nat → List Cap → Nat → LoopOut
  | 0, caps, frame_count => .fuelOut caps frame_count
  | fuel + 1, caps, frame_count =>
    match readTupleAux target_height caps [] [] with
    | .eos caps2 => .done caps2 frame_count
    | .exc caps2 => .exc caps2 frame_count
    | .tuple frames caps2 =>
      match np_concatenate frames with
      | .error _ => .exc caps2 frame_count
      | .ok _ =>
        loopRun target_height duplicate_frames fuel caps2
          (if duplicate_frames then frame_count + 2 else frame_count + 1)

/-- Result of a `concatenate_videos_horizontally` run: the returned boolean,
the final states of every decode handle ever opened, the encode handle (if
one was ever created) in its final state, and the frames-written count. -/
structure ConcatResult where
  retval : Bool
  caps : List Cap
  writer : Option Writer
  frame_count : Nat
deriving DecidableEq

/-- Embedding of `concatenate_videos_horizontally`.  Exit paths, as in the
source: empty input (line 236); open failure (lines 244-249, releases the
already opened captures); first-frame read failure (line 267, `return False`
inside `try` with NO cleanup); exception during sizing (handler lines
347-352 releases only the captures); writer creation failure (line 289,
`return False` inside `try` with NO cleanup); exception during the main loop
(handler releases only the captures, not the writer); normal completion
(lines 337-345, releases captures and writer, returns `True`). -/
def concatenate_videos_horizontally (env : Env) (video_paths : List String)
    (output_path : String) (target_height : Nat) (duplicate_frames : Bool) :
    ConcatResult :=
  if video_paths.isEmpty then
    { retval := false, caps := [], writer := none, frame_count := 0 }
  else
    match openAllCaps env video_paths [] with
    | .error caps =>
      { retval := false, caps := caps, writer := none, frame_count := 0 }
    | .ok caps =>
      match caps with
      | [] =>
        -- unreachable for nonempty paths; `caps[0]` would raise, the handler
        -- would release the (zero) captures and return False
        { retval := false, caps := [], writer := none, frame_count := 0 }
      | cap0 :: _ =>
        let fps := cap0.video.fps
        match readFirstFrames target_height caps [] [] with
        | .readFail caps1 =>
          { retval := false, caps := caps1, writer := none, frame_count := 0 }
        | .exc caps1 =>
          { retval := false, caps := caps1.map Cap.release, writer := none,
            frame_count := 0 }
        | .ok frame_widths caps1 =>
          let total_width := frame_widths.sum
          match createWriter env output_path fps total_width target_height with
          | none =>
            { retval := false, caps := caps1, writer := none, frame_count := 0 }
          | some out =>
            let fuel := (caps1.map (fun cap => cap.video.frames.length)).sum + 1
            match loopRun target_height duplicate_frames fuel caps1 0 with
            | .done caps2 frame_count =>
              { retval := true, caps := caps2.map Cap.release,
                writer := some out.release, frame_count := frame_count }
            | .exc caps2 frame_count =>
              { retval := false, caps := caps2.map Cap.release,
                writer := some out, frame_count := frame_count }
            | .fuelOut caps2 frame_count =>
              { retval := false, caps := caps2, writer := some out,
                frame_count := frame_count }

/-! ## Derived notions used to state the claims -/

/-- The video a path opens to (meaningful when the environment opens it). -/
def openedVideo (env : Env) (video_path : String) : Video :=
  (env.videos video_path).getD { fps := 0, frames := [] }

/-- A freshly opened capture for a path. -/
def freshCap (env : Env) (video_path : String) : Cap :=
  { video := openedVideo env video_path, pos := 0, opened := true }

/-- Width of the first frame of a video after resizing it to `target_height`
(the quantity the sizing loop records per input). -/
def firstResizedWidth (target_height : Nat) (v : Video) : Nat :=
  match v.frames with
  | [] => 0
  | f :: _ => target_height * shape1 f / shape0 f

/-- Advancing a capture cursor by one frame. -/
def advCap (cap : Cap) : Cap := { cap with pos := cap.pos + 1 }

/-- The frame currently under a capture cursor. -/
def curFrame (cap : Cap) : Frame :=
  (cap.video.frames.get? cap.pos).getD []

/-- The current frame of a capture, resized to the target height. -/
def resizedCur (target_height : Nat) (cap : Cap) : Frame :=
  cv2_resize (curFrame cap)
    (target_height * shape1 (curFrame cap) / shape0 (curFrame cap))
    target_height

/-! ## Concrete instances used by witnesses and counterexamples -/

/-- An environment in which no path opens (used to witness C2). -/
def envAllClosed : Env := { videos := fun _ => none, writerOk := true, writerAltOk := true }

/-- A 1x1 frame. -/
def unitFrame : Frame := [[0]]

/-- A video with `n` decodable 1x1 frames at 30 fps. -/
def smallVideo (n : Nat) : Video := { fps := 30, frames := List.replicate n unitFrame }

/-- Environment with three sources of 10, 12 and 8 frames (C5 witness). -/
def envLengths : Env :=
  { videos := fun p =>
      if p = "a" then some (smallVideo 10)
      else if p = "b" then some (smallVideo 12)
      else if p = "c" then some (smallVideo 8)
      else none,
    writerOk := true, writerAltOk := true }

/-- Environment whose first source opens but yields no frame (C1 failing
input: the first-frame read fails and the code returns without cleanup). -/
def envEmptyFirst : Env :=
  { videos := fun p =>
      if p = "a" then some { fps := 30, frames := [] }
      else if p = "b" then some (smallVideo 1)
      else if p = "c" then some (smallVideo 1)
      else none,
    writerOk := true, writerAltOk := true }

/-- Environment whose first source yields a decodable frame and then a
zero-height frame (C1 failing input for the exception path: the resize in the
main loop raises after the encode handle exists). -/
def envBadSecondFrame : Env :=
  { videos := fun p =>
      if p = "a" then some { fps := 30, frames := [unitFrame, []] }
      else if p = "b" then some (smallVideo 2)
      else if p = "c" then some (smallVideo 2)
      else none,
    writerOk := true, writerAltOk := true }

/-- The C9 pairing scenario input. -/
def pairFilesC9 : List String :=
  ["a_ours.mp4", "a_warped.mp4", "b_ours.mp4", "b_unknown_thing.mp4"]

/-- The pairs produced on the C9 scenario. -/
def pairsC9 : Pairs :=
  [("a", [("ours", "a_ours.mp4"), ("warped", "a_warped.mp4")]),
   ("b", [("ours", "b_ours.mp4"), ("warped", "b_unknown_thing.mp4")])]

/-! ## Helper lemmas -/

theorem countOpen_map_release (caps : List Cap) :
    countOpen (caps.map Cap.release) = 0 := by
  induction caps with
  | nil => rfl
  | cons cap rest ih =>
    simp [countOpen, Cap.release, List.filter_cons]

theorem openAllCaps_error_of_mem_none (env : Env) :
    ∀ (ps : List String) (acc : List Cap) (p : String),
    p ∈ ps → env.videos p = none →
    ∃ caps, openAllCaps env ps acc = .error caps ∧ countOpen caps = 0 := by
  intro ps
  induction ps with
  | nil => intro acc p hmem; cases hmem
  | cons q rest ih =>
    intro acc p hmem hnone
    by_cases hq : env.videos q = none
    · exact ⟨acc.map Cap.release, by simp [openAllCaps, hq],
        countOpen_map_release acc⟩
    · obtain ⟨v, hv⟩ := Option.ne_none_iff_exists.mp hq
      have hp : p ∈ rest := by
        rcases List.mem_cons.mp hmem with h | h
        · exact absurd (h ▸ hnone) (by rw [← hv]; simp)
        · exact h
      simpa [openAllCaps, ← hv] using
        ih (acc ++ [{ video := v, pos := 0, opened := true }]) p hp hnone

theorem openAllCaps_ok_of_all_isSome (env : Env) :
    ∀ (ps : List String) (acc : List Cap),
    (∀ p ∈ ps, (env.videos p).isSome) →
    openAllCaps env ps acc = .ok (acc ++ ps.map (freshCap env)) := by
  intro ps
  induction ps with
  | nil => intro acc _; simp [openAllCaps]
  | cons q rest ih =>
    intro acc hall
    obtain ⟨v, hv⟩ := Option.isSome_iff_exists.mp (hall q (by simp))
    have hfresh : freshCap env q = { video := v, pos := 0, opened := true } := by
      simp [freshCap, openedVideo, hv]
    have hrest := ih (acc ++ [{ video := v, pos := 0, opened := true }])
      (fun p hp => hall p (by simp [hp]))
    simp only [openAllCaps, hv]
    rw [hrest]
    simp [hfresh]

theorem dictHas_of_dictGet {α : Type} (m : List (String × α)) (k : String)
    (x : α) (h : dictGet m k = some x) : dictHas m k = true := by
  induction m with
  | nil => simp [dictGet] at h
  | cons kv rest ih =>
    cases hk : (kv.1 == k) with
    | true => simp [dictHas, hk]
    | false =>
      simp only [dictGet, List.find?, hk] at h
      simp only [dictHas, List.any_cons, hk, Bool.false_or]
      exact ih (by simpa [dictGet] using h)

theorem resize_isOk_iff (frame : Frame) (target_height : Nat) :
    (resize_frame_to_height frame target_height).isOk = true ↔
      (shape0 frame ≠ 0 ∧ target_height * shape1 frame / shape0 frame ≠ 0 ∧
        target_height ≠ 0) := by
  unfold resize_frame_to_height
  by_cases h0 : shape0 frame = 0
  · simp [h0, Except.isOk, Except.toBool]
  · by_cases h1 : target_height * shape1 frame / shape0 frame = 0 ∨
        target_height = 0
    · simp [h0, h1, Except.isOk, Except.toBool]
      tauto
    · push_neg at h1
      simp [h0, h1.1, h1.2, Except.isOk, Except.toBool]

theorem resize_eq_of_isOk (frame : Frame) (target_height : Nat)
    (h : (resize_frame_to_height frame target_height).isOk = true) :
    resize_frame_to_height frame target_height =
      .ok (cv2_resize frame
        (target_height * shape1 frame / shape0 frame) target_height) := by
  obtain ⟨h0, h1, h2⟩ := (resize_isOk_iff frame target_height).mp h
  unfold resize_frame_to_height
  simp [h0, h1, h2]

theorem shape0_cv2_resize (frame : Frame) (w h : Nat) :
    shape0 (cv2_resize frame w h) = h := by
  simp [shape0, cv2_resize]

theorem shape1_cv2_resize (frame : Frame) (w h : Nat) (hh : h ≠ 0) :
    shape1 (cv2_resize frame w h) = w := by
  cases h with
  | zero => exact absurd rfl hh
  | succ n => simp [shape1, cv2_resize, List.replicate]

theorem readFirstFrames_ok (target_height : Nat) :
    ∀ (pending done : List Cap) (widths : List Nat),
    (∀ cap ∈ pending, cap.pos = 0 ∧ ∃ f, cap.video.frames.get? 0 = some f ∧
      (resize_frame_to_height f target_height).isOk = true) →
    readFirstFrames target_height pending done widths =
      .ok (widths ++ pending.map (fun cap => firstResizedWidth target_height cap.video))
        (done ++ pending) := by
  intro pending
  induction pending with
  | nil => intro done widths _; simp [readFirstFrames]
  | cons cap rest ih =>
    intro done widths hall
    obtain ⟨hpos, f, hget, hok⟩ := hall cap (by simp)
    have hread : cap.read = (some f, { cap with pos := cap.pos + 1 }) := by
      rw [Cap.read, hpos, hget]
    have hth : target_height ≠ 0 :=
      ((resize_isOk_iff f target_height).mp hok).2.2
    have hwidth : shape1 (cv2_resize f
        (target_height * shape1 f / shape0 f) target_height) =
        firstResizedWidth target_height cap.video := by
      rw [shape1_cv2_resize _ _ _ hth]
      have hfr2 : cap.video.frames = f :: cap.video.frames.tail := by
        cases hfr : cap.video.frames with
        | nil => rw [hfr] at hget; simp at hget
        | cons g t =>
          rw [hfr] at hget; simp at hget; simp [hget]
      rw [firstResizedWidth, hfr2]
    have hreset : ({ video := cap.video, pos := 0, opened := cap.opened } : Cap) = cap := by
      rw [← hpos]
    simp only [readFirstFrames, hread, resize_eq_of_isOk f target_height hok]
    rw [hreset,
      ih (done ++ [cap])
        (widths ++ [shape1 (cv2_resize f
          (target_height * shape1 f / shape0 f) target_height)])
        (fun c hc => hall c (by simp [hc]))]
    rw [hwidth]
    simp

theorem readTupleAux_tuple (target_height : Nat) :
    ∀ (pending done : List Cap) (frames : List Frame),
    (∀ cap ∈ pending, (∃ f, cap.video.frames.get? cap.pos = some f ∧
      (resize_frame_to_height f target_height).isOk = true)) →
    readTupleAux target_height pending done frames =
      .tuple (frames ++ pending.map (resizedCur target_height))
        (done ++ pending.map advCap) := by
  intro pending
  induction pending with
  | nil => intro done frames _; simp [readTupleAux]
  | cons cap rest ih =>
    intro done frames hall
    obtain ⟨f, hget, hok⟩ := hall cap (by simp)
    have hread : cap.read = (some f, advCap cap) := by
      rw [Cap.read, hget]; rfl
    have hcur : curFrame cap = f := by rw [curFrame, hget]; rfl
    simp only [readTupleAux, hread, resize_eq_of_isOk f target_height hok]
    rw [ih (done ++ [advCap cap])
        (frames ++ [cv2_resize f (target_height * shape1 f / shape0 f) target_height])
        (fun c hc => hall c (by simp [hc]))]
    simp [resizedCur, hcur]

theorem readTupleAux_eos (target_height : Nat) :
    ∀ (pending done : List Cap) (frames : List Frame),
    (∀ cap ∈ pending, ∀ f ∈ cap.video.frames,
      (resize_frame_to_height f target_height).isOk = true) →
    (∃ cap ∈ pending, cap.video.frames.get? cap.pos = none) →
    ∃ caps2, readTupleAux target_height pending done frames = .eos caps2 := by
  intro pending
  induction pending with
  | nil =>
    intro done frames _ hex
    obtain ⟨cap, hm, _⟩ := hex; cases hm
  | cons cap rest ih =>
    intro done frames hall hex
    cases hget : cap.video.frames.get? cap.pos with
    | none =>
      refine ⟨done ++ cap :: rest, ?_⟩
      have hread : cap.read = (none, cap) := by rw [Cap.read, hget]
      simp only [readTupleAux, hread]
    | some f =>
      have hok : (resize_frame_to_height f target_height).isOk = true :=
        hall cap (by simp) f (List.get?_mem hget)
      have hread : cap.read = (some f, advCap cap) := by
        rw [Cap.read, hget]; rfl
      have hex2 : ∃ c ∈ rest, c.video.frames.get? c.pos = none := by
        obtain ⟨c, hm, hc⟩ := hex
        rcases List.mem_cons.mp hm with h | h
        · rw [h, hget] at hc; cases hc
        · exact ⟨c, h, hc⟩
      obtain ⟨caps2, hc2⟩ := ih (done ++ [advCap cap])
        (frames ++ [cv2_resize f (target_height * shape1 f / shape0 f) target_height])
        (fun c hc => hall c (by simp [hc])) hex2
      refine ⟨caps2, ?_⟩
      simp only [readTupleAux, hread, resize_eq_of_isOk f target_height hok]
      exact hc2

theorem loopRun_done (target_height : Nat) (duplicate_frames : Bool) :
    ∀ (n fuel : Nat) (caps : List Cap) (frame_count : Nat),
    (∀ cap ∈ caps, ∀ f ∈ cap.video.frames,
      (resize_frame_to_height f target_height).isOk = true) →
    (∀ cap ∈ caps, n ≤ cap.video.frames.length - cap.pos) →
    (∃ cap ∈ caps, cap.video.frames.length - cap.pos = n) →
    n < fuel →
    ∃ caps2, loopRun target_height duplicate_frames fuel caps frame_count =
      .done caps2 (frame_count + (if duplicate_frames then 2 else 1) * n) := by
  intro n
  induction n with
  | zero =>
    intro fuel caps frame_count hwf _ hex hfuel
    obtain ⟨cap, hm, hrem⟩ := hex
    have hnone : cap.video.frames.get? cap.pos = none := by
      rw [List.get?_eq_none]
      omega
    obtain ⟨caps2, heos⟩ :=
      readTupleAux_eos target_height caps [] [] hwf ⟨cap, hm, hnone⟩
    cases fuel with
    | zero => omega
    | succ m =>
      refine ⟨caps2, ?_⟩
      rw [loopRun, heos]
      simp
  | succ k ih =>
    intro fuel caps frame_count hwf hmin hex hfuel
    have hall : ∀ cap ∈ caps, (∃ f, cap.video.frames.get? cap.pos = some f ∧
        (resize_frame_to_height f target_height).isOk = true) := by
      intro cap hm
      have hlt : cap.pos < cap.video.frames.length := by
        have := hmin cap hm; omega
      refine ⟨cap.video.frames.get ⟨cap.pos, hlt⟩, List.get?_eq_get hlt, ?_⟩
      exact hwf cap hm _ (cap.video.frames.get_mem _ _)
    have htuple := readTupleAux_tuple target_height caps [] [] hall
    obtain ⟨cap0, hm0, hrem0⟩ := hex
    have hne : caps ≠ [] := by intro h; rw [h] at hm0; cases hm0
    obtain ⟨c, cs, hcaps⟩ := List.exists_cons_of_ne_nil hne
    have hconcat : ∃ g, np_concatenate (caps.map (resizedCur target_height)) = .ok g := by
      rw [hcaps]
      simp only [List.map_cons, np_concatenate]
      have : ∀ fr ∈ cs.map (resizedCur target_height),
          (shape0 fr == shape0 (resizedCur target_height c)) = true := by
        intro fr hfr
        obtain ⟨d, _, hd⟩ := List.mem_map.mp hfr
        rw [← hd]
        simp [resizedCur, shape0_cv2_resize]
      rw [List.all_eq_true.mpr this]
      exact ⟨_, rfl⟩
    obtain ⟨g, hg⟩ := hconcat
    cases fuel with
    | zero => omega
    | succ m =>
      have hwf2 : ∀ cap ∈ caps.map advCap, ∀ f ∈ cap.video.frames,
          (resize_frame_to_height f target_height).isOk = true := by
        intro cap hm f hf
        obtain ⟨d, hd, hde⟩ := List.mem_map.mp hm
        rw [← hde] at hf
        exact hwf d hd f hf
      have hmin2 : ∀ cap ∈ caps.map advCap,
          k ≤ cap.video.frames.length - cap.pos := by
        intro cap hm
        obtain ⟨d, hd, hde⟩ := List.mem_map.mp hm
        have := hmin d hd
        rw [← hde]
        simp only [advCap]
        omega
      have hex2 : ∃ cap ∈ caps.map advCap,
          cap.video.frames.length - cap.pos = k := by
        refine ⟨advCap cap0, List.mem_map.mpr ⟨cap0, hm0, rfl⟩, ?_⟩
        simp only [advCap]
        omega
      obtain ⟨caps2, hrec⟩ := ih m (caps.map advCap)
        (if duplicate_frames then frame_count + 2 else frame_count + 1)
        hwf2 hmin2 hex2 (by omega)
      refine ⟨caps2, ?_⟩
      rw [loopRun, htuple]
      simp only [List.nil_append]
      rw [hg, hrec]
      cases duplicate_frames <;> simp <;> ring_nf

theorem mem_pySlice {α : Type} {a : α} {l : List α} {i j : Int}
    (h : a ∈ pySlice l i j) : a ∈ l := by
  unfold pySlice at h
  exact List.mem_of_mem_drop (List.mem_of_mem_take h)

theorem pySlice_zero_full {α : Type} (l : List α) (n : Nat) (hn : l.length = n) :
    pySlice l 0 ((n : Int)) = l := by
  unfold pySlice normIdx
  have h0 : ¬((0 : Int) < 0) := by omega
  have h1 : ¬((n : Int) < 0) := by omega
  simp only [if_neg h0, if_neg h1, Int.toNat_ofNat, Int.toNat_zero, hn]
  simp
  omega

theorem pySlice_same {α : Type} (l : List α) (i : Int) : pySlice l i i = [] := by
  unfold pySlice
  simp

theorem pySlice_last_cols {α : Type} (l : List α) (W k : Nat) (hl : l.length = W)
    (hk0 : 0 < k) (hk : k ≤ W) :
    pySlice l (-(k : Int)) ((W : Int)) = l.drop (W - k) := by
  unfold pySlice normIdx
  have h0 : (-(k : Int)) < 0 := by omega
  have h1 : ¬((W : Int) < 0) := by omega
  have h2 : ((W : Int) + -(k : Int)).toNat = W - k := by omega
  simp only [if_pos h0, if_neg h1, hl, h2, Int.toNat_ofNat, min_self]
  have h3 : (l.drop (W - k)).length ≤ W - (W - k) := by
    rw [List.length_drop, hl]
  exact List.take_of_length_le h3

theorem shape1_map_cons (g : List Pixel → List Pixel) (r : List Pixel)
    (rs : List (List Pixel)) :
    shape1 ((r :: rs).map g) = (g r).length := by
  simp [shape1]

/-! ## Claim C3 -/

/-- Claim C3, as stated, is false: with `w = 0` and `x = 1` on a 1x4 frame the
sentinel is NOT resolved (the executed condition is `x + w == 0`, which fails
for `x = 1`), so the cropped width is 0, not `frame.width - x = 3`. -/
theorem crop_w0_claim_cex :
    shape1 (crop_frame [[0, 1, 2, 3]] { x := 1, y := 0, w := 0, h := 1 }) = 0 ∧
      shape1 ([[0, 1, 2, 3]] : Frame) - 1 = 3 := by
  decide

/-- Claim C3 (amended): for a crop spec with `w = 0`, `crop_frame` resolves
the width sentinel only when `x + w = 0`, i.e. only when `x = 0`; then the
cropped width is `frame.width - x` (that is, the full width `W`), while for
`x` in `(0, W)` the width of any produced row is 0.  Stated for a frame whose
rows all have width `W`, for a crop that selects at least one row. -/
theorem crop_w0_sentinel (frame : Frame) (W x : Nat) (y h : Int)
    (hW : ∀ row ∈ frame, row.length = W) (hx : x < W)
    (hne : crop_frame frame { x := (x : Int), y := y, w := 0, h := h } ≠ []) :
    shape1 (crop_frame frame { x := (x : Int), y := y, w := 0, h := h }) =
      if x = 0 then W else 0 := by
  have hcrop : crop_frame frame { x := (x : Int), y := y, w := 0, h := h } =
      (pySlice frame y (y + (if y + h = 0 then (shape0 frame : Int) - y else h))).map
        (fun row => pySlice row (x : Int)
          ((x : Int) + (if (x : Int) + 0 = 0 then (shape1 frame : Int) - (x : Int) else 0))) :=
    rfl
  rw [hcrop] at hne ⊢
  set rows := pySlice frame y
    (y + (if y + h = 0 then (shape0 frame : Int) - y else h)) with hrowsdef
  have hrowsne : rows ≠ [] := by
    intro h0
    rw [h0] at hne
    simp at hne
  obtain ⟨r, rs, hr⟩ := List.exists_cons_of_ne_nil hrowsne
  have hrmem : r ∈ frame := by
    apply mem_pySlice (l := frame)
    rw [← hrowsdef, hr]
    exact List.mem_cons_self r rs
  have hrW : r.length = W := hW r hrmem
  rw [hr, shape1_map_cons]
  by_cases hx0 : x = 0
  · subst hx0
    have hfne : frame ≠ [] := by
      intro hf
      rw [hf] at hrmem
      cases hrmem
    obtain ⟨f0, fs, hf⟩ := List.exists_cons_of_ne_nil hfne
    have hs1 : shape1 frame = W := by
      rw [hf, shape1]
      exact hW f0 (by rw [hf]; exact List.mem_cons_self f0 fs)
    have hcond : ((0 : Nat) : Int) + 0 = 0 := by norm_num
    rw [if_pos hcond, hs1]
    have hj : ((0 : Nat) : Int) + ((W : Int) - ((0 : Nat) : Int)) = (W : Int) := by
      push_cast
      ring
    rw [hj]
    have h00 : ((0 : Nat) : Int) = (0 : Int) := rfl
    rw [h00, pySlice_zero_full r W hrW]
    simp [hrW]
  · have hcond : ¬((x : Int) + 0 = 0) := by omega
    rw [if_neg hcond]
    have hxx : (x : Int) + 0 = (x : Int) := by ring
    rw [hxx, pySlice_same]
    simp [hx0]

/-- Witness for the amended C3 at a concrete input: a 1x3 frame with
`x = 1`, `w = 0` yields cropped width 0. -/
theorem crop_w0_sentinel_witness :
    shape1 (crop_frame [[0, 1, 2]] { x := 1, y := 0, w := 0, h := 1 }) =
      if 1 = 0 then 3 else 0 :=
  crop_w0_sentinel [[0, 1, 2]] 3 1 0 1 (by decide) (by decide) (by decide)

/-! ## Claim C4 -/

/-- Claim C4, as stated, is false: with `x = -2` but `w = 1` on a 1x4 frame
the sentinel condition `x + w == 0` does not fire, the slice is
`row[-2:-1]`, and the cropped width is 1, not `k = 2`. -/
theorem crop_neg_x_claim_cex :
    shape1 (crop_frame [[0, 1, 2, 3]] { x := -2, y := 0, w := 1, h := 1 }) = 1 ∧
      (1 : Nat) ≠ 2 := by
  decide

/-- Claim C4 (amended): for a crop spec with `x = -k` and `w = k`
(`0 < k ≤ W`) — the shape in which the code is actually invoked, and the one
that fires the resolution condition `x + w == 0` — the crop keeps exactly the
last `k` columns of every row, so the result equals the frame with each row
replaced by its last `k` entries and the cropped width is `k`.  Stated for a
full-height crop (`y = 0`, `h` = the frame height `H ≥ 1`) of a frame whose
rows all have width `W`. -/
theorem crop_last_k_cols (frame : Frame) (W k H : Nat)
    (hW : ∀ row ∈ frame, row.length = W) (hH : frame.length = H) (hH1 : 1 ≤ H)
    (hk0 : 0 < k) (hkW : k ≤ W) :
    crop_frame frame { x := -(k : Int), y := 0, w := (k : Int), h := (H : Int) } =
        frame.map (fun row => row.drop (W - k)) ∧
      shape1 (crop_frame frame
        { x := -(k : Int), y := 0, w := (k : Int), h := (H : Int) }) = k := by
  have hcrop : crop_frame frame
      { x := -(k : Int), y := 0, w := (k : Int), h := (H : Int) } =
      (pySlice frame 0 (0 + (if (0 : Int) + (H : Int) = 0 then (shape0 frame : Int) - 0 else (H : Int)))).map
        (fun row => pySlice row (-(k : Int))
          ((-(k : Int)) + (if -(k : Int) + (k : Int) = 0 then (shape1 frame : Int) - (-(k : Int)) else (k : Int)))) :=
    rfl
  have hfne : frame ≠ [] := by
    intro hf
    rw [hf] at hH
    simp at hH
    omega
  obtain ⟨f0, fs, hf⟩ := List.exists_cons_of_ne_nil hfne
  have hs1 : shape1 frame = W := by
    rw [hf, shape1]
    exact hW f0 (by rw [hf]; exact List.mem_cons_self f0 fs)
  have hHcond : ¬((0 : Int) + (H : Int) = 0) := by omega
  have hkcond : -(k : Int) + (k : Int) = 0 := by ring
  have hrows : (0 : Int) + (H : Int) = ((H : Int)) := by ring
  have hcols : (-(k : Int)) + ((W : Int) - (-(k : Int))) = (W : Int) := by ring
  have heq : crop_frame frame
      { x := -(k : Int), y := 0, w := (k : Int), h := (H : Int) } =
      frame.map (fun row => pySlice row (-(k : Int)) ((W : Int))) := by
    rw [hcrop, if_neg hHcond, if_pos hkcond, hs1, hrows, hcols,
      pySlice_zero_full frame H hH]
  have hmapeq : frame.map (fun row => pySlice row (-(k : Int)) ((W : Int))) =
      frame.map (fun row => row.drop (W - k)) := by
    apply List.map_congr_left
    intro r hrmem
    exact pySlice_last_cols r W k (hW r hrmem) hk0 hkW
  refine ⟨heq.trans hmapeq, ?_⟩
  rw [heq.trans hmapeq, hf, shape1_map_cons, List.length_drop]
  have hfW : f0.length = W := hW f0 (by rw [hf]; exact List.mem_cons_self f0 fs)
  omega

/-- Witness for the amended C4 at a concrete input: cropping a 1x4 frame with
`x = -2, w = 2` keeps the last two columns. -/
theorem crop_last_k_cols_witness :
    crop_frame [[0, 1, 2, 3]] { x := -(2 : Int), y := 0, w := 2, h := 1 } =
        ([[0, 1, 2, 3]] : Frame).map (fun row => row.drop (4 - 2)) ∧
      shape1 (crop_frame [[0, 1, 2, 3]]
        { x := -(2 : Int), y := 0, w := 2, h := 1 }) = 2 :=
  crop_last_k_cols [[0, 1, 2, 3]] 4 2 1 (by decide) (by decide) (by decide)
    (by decide) (by decide)

/-! ## Claim C2 -/

/-- Claim C2: if opening any source fails, `concatenate_videos_horizontally`
releases every already-opened decode handle inside the opening loop and
reports failure; zero decode handles remain open and no encode handle was
ever created. -/
theorem concat_open_failure_releases_all (env : Env) (video_paths : List String)
    (output_path : String) (target_height : Nat) (duplicate_frames : Bool)
    (p : String) (hmem : p ∈ video_paths) (hfail : env.videos p = none) :
    (concatenate_videos_horizontally env video_paths output_path
        target_height duplicate_frames).retval = false ∧
    countOpen (concatenate_videos_horizontally env video_paths output_path
        target_height duplicate_frames).caps = 0 ∧
    (concatenate_videos_horizontally env video_paths output_path
        target_height duplicate_frames).writer = none := by
  obtain ⟨caps, herr, hcount⟩ :=
    openAllCaps_error_of_mem_none env video_paths [] p hmem hfail
  have hne : video_paths.isEmpty = false := by
    cases video_paths with
    | nil => cases hmem
    | cons a l => rfl
  simp only [concatenate_videos_horizontally, hne, Bool.false_eq_true,
    if_false, herr]
  exact ⟨trivial, hcount, trivial⟩

/-- Witness for C2: with an environment in which no path opens, the run on
one path reports failure with zero open handles. -/
theorem concat_open_failure_releases_all_witness :
    (concatenate_videos_horizontally envAllClosed ["a"] "out.mp4"
        320 false).retval = false ∧
    countOpen (concatenate_videos_horizontally envAllClosed ["a"] "out.mp4"
        320 false).caps = 0 ∧
    (concatenate_videos_horizontally envAllClosed ["a"] "out.mp4"
        320 false).writer = none :=
  concat_open_failure_releases_all envAllClosed ["a"] "out.mp4" 320 false "a"
    (by decide) rfl

/-! ## Claim C7 -/

/-- Claim C7: the horizontal composition step fails (numpy raises the
dimension-mismatch `ValueError`, the composition failure of the design)
whenever the frames of a tuple do not all share the same height; no
concatenated frame is produced. -/
theorem np_concatenate_height_mismatch (f : Frame) (fs : List Frame)
    (hmis : ∃ g ∈ fs, shape0 g ≠ shape0 f) :
    ∃ e, np_concatenate (f :: fs) = .error e := by
  refine ⟨"ValueError: all the input array dimensions must match", ?_⟩
  rw [np_concatenate]
  have hall : fs.all (fun g => shape0 g == shape0 f) = false := by
    cases hcase : fs.all (fun g => shape0 g == shape0 f) with
    | false => rfl
    | true =>
      exfalso
      obtain ⟨g, hg, hne⟩ := hmis
      have := List.all_eq_true.mp hcase g hg
      simp at this
      exact hne this
  rw [hall]
  simp

/-- Witness for C7: a 1x1 frame and a 0x0 frame have different heights, and
composing them fails. -/
theorem np_concatenate_height_mismatch_witness :
    ∃ e, np_concatenate [([[0]] : Frame), ([] : Frame)] = .error e :=
  np_concatenate_height_mismatch [[0]] [[]]
    ⟨[], by decide, by decide⟩

/-! ## Claim C5 -/

/-- Claim C5: over three sources of 10, 12 and 8 frames (all decodable and
resizable, writer creation succeeding), the lock-step loop stops after the
shortest source is exhausted and the run succeeds with exactly 8 composite
frames written — 16 when the slowdown flag duplicates each frame. -/
theorem concat_lengths_10_12_8 (env : Env) (p0 p1 p2 : String)
    (v0 v1 v2 : Video) (output_path : String) (target_height : Nat)
    (duplicate_frames : Bool)
    (hv0 : env.videos p0 = some v0) (hv1 : env.videos p1 = some v1)
    (hv2 : env.videos p2 = some v2)
    (hl0 : v0.frames.length = 10) (hl1 : v1.frames.length = 12)
    (hl2 : v2.frames.length = 8)
    (hwf : ∀ v ∈ [v0, v1, v2], ∀ f ∈ v.frames,
      (resize_frame_to_height f target_height).isOk = true)
    (hw : env.writerOk = true) :
    (concatenate_videos_horizontally env [p0, p1, p2] output_path
        target_height duplicate_frames).retval = true ∧
    (concatenate_videos_horizontally env [p0, p1, p2] output_path
        target_height duplicate_frames).frame_count =
      if duplicate_frames then 16 else 8 := by
  have hsome : ∀ p ∈ [p0, p1, p2], (env.videos p).isSome := by
    intro p hp
    simp only [List.mem_cons, List.not_mem_nil, or_false] at hp
    rcases hp with h | h | h
    · rw [h, hv0]; rfl
    · rw [h, hv1]; rfl
    · rw [h, hv2]; rfl
  have hcaps : openAllCaps env [p0, p1, p2] [] =
      .ok [{ video := v0, pos := 0, opened := true },
           { video := v1, pos := 0, opened := true },
           { video := v2, pos := 0, opened := true }] := by
    rw [openAllCaps_ok_of_all_isSome env _ [] hsome]
    simp [freshCap, openedVideo, hv0, hv1, hv2]
  have hcapmem : ∀ cap ∈ ([{ video := v0, pos := 0, opened := true },
      { video := v1, pos := 0, opened := true },
      { video := v2, pos := 0, opened := true }] : List Cap),
      cap.pos = 0 ∧ cap.video ∈ [v0, v1, v2] := by
    intro cap hcap
    simp only [List.mem_cons, List.not_mem_nil, or_false] at hcap
    rcases hcap with h | h | h
    · rw [h]; exact ⟨rfl, by simp⟩
    · rw [h]; exact ⟨rfl, by simp⟩
    · rw [h]; exact ⟨rfl, by simp⟩
  have hlen : ∀ v ∈ [v0, v1, v2], 0 < v.frames.length := by
    intro v hv
    simp only [List.mem_cons, List.not_mem_nil, or_false] at hv
    rcases hv with h | h | h
    · rw [h, hl0]; omega
    · rw [h, hl1]; omega
    · rw [h, hl2]; omega
  have hfirst := readFirstFrames_ok target_height
    [{ video := v0, pos := 0, opened := true },
     { video := v1, pos := 0, opened := true },
     { video := v2, pos := 0, opened := true }] [] []
    (by
      intro cap hcap
      obtain ⟨hpos, hvm⟩ := hcapmem cap hcap
      have hpos0 : 0 < cap.video.frames.length := hlen _ hvm
      refine ⟨hpos, cap.video.frames.get ⟨0, hpos0⟩, List.get?_eq_get hpos0, ?_⟩
      exact hwf _ hvm _ (List.get_mem _ _ _))
  have hwfloop : ∀ cap ∈ ([{ video := v0, pos := 0, opened := true },
      { video := v1, pos := 0, opened := true },
      { video := v2, pos := 0, opened := true }] : List Cap),
      ∀ f ∈ cap.video.frames,
      (resize_frame_to_height f target_height).isOk = true := by
    intro cap hcap f hf
    exact hwf _ (hcapmem cap hcap).2 _ hf
  have hmin : ∀ cap ∈ ([{ video := v0, pos := 0, opened := true },
      { video := v1, pos := 0, opened := true },
      { video := v2, pos := 0, opened := true }] : List Cap),
      8 ≤ cap.video.frames.length - cap.pos := by
    intro cap hcap
    simp only [List.mem_cons, List.not_mem_nil, or_false] at hcap
    rcases hcap with h | h | h
    · rw [h]; simp [hl0]
    · rw [h]; simp [hl1]
    · rw [h]; simp [hl2]
  have hex : ∃ cap ∈ ([{ video := v0, pos := 0, opened := true },
      { video := v1, pos := 0, opened := true },
      { video := v2, pos := 0, opened := true }] : List Cap),
      cap.video.frames.length - cap.pos = 8 :=
    ⟨{ video := v2, pos := 0, opened := true }, by simp, by simp [hl2]⟩
  obtain ⟨caps2, hloop⟩ := loopRun_done target_height duplicate_frames 8
    ((([{ video := v0, pos := 0, opened := true },
        { video := v1, pos := 0, opened := true },
        { video := v2, pos := 0, opened := true }] : List Cap).map
          (fun cap => cap.video.frames.length)).sum + 1)
    [{ video := v0, pos := 0, opened := true },
     { video := v1, pos := 0, opened := true },
     { video := v2, pos := 0, opened := true }] 0
    hwfloop hmin hex (by simp [hl0, hl1, hl2])
  have hwriter : ∀ (path : String) (fps : Int) (tw th : Nat),
      createWriter env path fps tw th =
        some { path := path, fourcc := "mp4v", fps := fps, width := tw,
               height := th, opened := true } := by
    intro path fps tw th
    simp [createWriter, hw]
  constructor
  · simp only [concatenate_videos_horizontally, List.isEmpty_cons,
      Bool.false_eq_true, if_false, hcaps, hfirst, List.nil_append, hwriter,
      hloop]
  · simp only [concatenate_videos_horizontally, List.isEmpty_cons,
      Bool.false_eq_true, if_false, hcaps, hfirst, List.nil_append, hwriter,
      hloop]
    cases duplicate_frames <;> norm_num

/-- Witness for C5: the concrete environment with 10-, 12- and 8-frame
sources writes 16 frames in slowdown mode. -/
theorem concat_lengths_10_12_8_witness :
    (concatenate_videos_horizontally envLengths ["a", "b", "c"] "out.mp4"
        2 true).retval = true ∧
    (concatenate_videos_horizontally envLengths ["a", "b", "c"] "out.mp4"
        2 true).frame_count = if true then 16 else 8 :=
  concat_lengths_10_12_8 envLengths "a" "b" "c" (smallVideo 10) (smallVideo 12)
    (smallVideo 8) "out.mp4" 2 true rfl rfl rfl (by decide) (by decide)
    (by decide) (by decide) rfl

/-! ## Claim C6 -/

/-- Claim C6: on any run that gets past stream opening and sizing (every
source opens and yields a resizable first frame) and writer creation, the
encode handle is created with the frame rate of the FIRST input stream only,
the caller-supplied target height, and width equal to the sum of the
per-input first-frame widths after resizing to the target height; these
parameters are fixed before the main loop and are unchanged whatever the
loop outcome. -/
theorem concat_writer_params (env : Env) (p0 : String) (rest : List String)
    (v0 : Video) (output_path : String) (target_height : Nat)
    (duplicate_frames : Bool)
    (hv0 : env.videos p0 = some v0)
    (hall : ∀ p ∈ p0 :: rest, ∃ v, env.videos p = some v ∧ ∃ f fr,
      v.frames = f :: fr ∧
      (resize_frame_to_height f target_height).isOk = true)
    (hw : env.writerOk = true ∨ env.writerAltOk = true) :
    ∃ wtr, (concatenate_videos_horizontally env (p0 :: rest) output_path
        target_height duplicate_frames).writer = some wtr ∧
      wtr.fps = v0.fps ∧ wtr.height = target_height ∧
      wtr.width = ((p0 :: rest).map
        (fun p => firstResizedWidth target_height (openedVideo env p))).sum := by
  have hsome : ∀ p ∈ p0 :: rest, (env.videos p).isSome := by
    intro p hp
    obtain ⟨v, hv, _⟩ := hall p hp
    rw [hv]; rfl
  have hcaps : openAllCaps env (p0 :: rest) [] =
      .ok (freshCap env p0 :: rest.map (freshCap env)) := by
    rw [openAllCaps_ok_of_all_isSome env _ [] hsome]
    simp
  have hfirst := readFirstFrames_ok target_height
    (freshCap env p0 :: rest.map (freshCap env)) [] []
    (by
      intro cap hcap
      have hcap2 : ∃ p ∈ p0 :: rest, cap = freshCap env p := by
        rcases List.mem_cons.mp hcap with h | h
        · exact ⟨p0, by simp, h⟩
        · obtain ⟨p, hp, hpe⟩ := List.mem_map.mp h
          exact ⟨p, by simp [hp], hpe.symm⟩
      obtain ⟨p, hp, hpe⟩ := hcap2
      obtain ⟨v, hv, f, fr, hfr, hok⟩ := hall p hp
      have hvid : cap.video = v := by
        rw [hpe]
        simp [freshCap, openedVideo, hv]
      refine ⟨by rw [hpe]; rfl, f, ?_, hok⟩
      rw [hvid, hfr]
      rfl)
  have hfps : (freshCap env p0).video.fps = v0.fps := by
    simp [freshCap, openedVideo, hv0]
  have hwidths : ((freshCap env p0 :: rest.map (freshCap env)).map
      (fun cap => firstResizedWidth target_height cap.video)) =
      ((p0 :: rest).map
        (fun p => firstResizedWidth target_height (openedVideo env p))) := by
    simp only [List.map_cons, List.map_map]
    exact List.cons_eq_cons.mpr ⟨rfl, rfl⟩
  have hwriter : ∀ (path : String) (fps : Int) (tw th : Nat),
      ∃ wtr, createWriter env path fps tw th = some wtr ∧
        wtr.fps = fps ∧ wtr.width = tw ∧ wtr.height = th := by
    intro path fps tw th
    cases hwk : env.writerOk with
    | true =>
      exact ⟨{ path := path, fourcc := "mp4v", fps := fps, width := tw,
               height := th, opened := true },
        by simp [createWriter, hwk], rfl, rfl, rfl⟩
    | false =>
      rcases hw with h | h
      · rw [hwk] at h; cases h
      · exact ⟨{ path := path.replace ".mp4" ".avi", fourcc := "XVID",
                 fps := fps, width := tw, height := th, opened := true },
          by simp [createWriter, hwk, h], rfl, rfl, rfl⟩
  obtain ⟨out, hcw, hofps, howid, hoht⟩ := hwriter output_path
    (freshCap env p0).video.fps
    (([] ++ (freshCap env p0 :: rest.map (freshCap env)).map
      (fun cap : Cap => firstResizedWidth target_height cap.video)).sum)
    target_height
  simp only [concatenate_videos_horizontally, List.isEmpty_cons,
    Bool.false_eq_true, if_false, hcaps, hfirst, hcw]
  cases hloopcase : loopRun target_height duplicate_frames
      ((([] ++ (freshCap env p0 :: rest.map (freshCap env))).map
        (fun cap : Cap => cap.video.frames.length)).sum + 1)
      ([] ++ (freshCap env p0 :: rest.map (freshCap env))) 0 with
  | done caps2 fc =>
    refine ⟨out.release, rfl, ?_, ?_, ?_⟩
    · rw [Writer.release, hofps, hfps]
    · rw [Writer.release, hoht]
    · rw [Writer.release, howid]
      simp only [List.nil_append, hwidths]
  | exc caps2 fc =>
    refine ⟨out, rfl, ?_, ?_, ?_⟩
    · rw [hofps, hfps]
    · exact hoht
    · rw [howid]
      simp only [List.nil_append, hwidths]
  | fuelOut caps2 fc =>
    refine ⟨out, rfl, ?_, ?_, ?_⟩
    · rw [hofps, hfps]
    · exact hoht
    · rw [howid]
      simp only [List.nil_append, hwidths]

/-- Witness for C6: on the concrete 10/12/8 environment with target height 2,
the writer is created at 30 fps, height 2, width 2 + 2 + 2. -/
theorem concat_writer_params_witness :
    ∃ wtr, (concatenate_videos_horizontally envLengths ["a", "b", "c"]
        "out.mp4" 2 false).writer = some wtr ∧
      wtr.fps = (smallVideo 10).fps ∧ wtr.height = 2 ∧
      wtr.width = ((["a", "b", "c"] : List String).map
        (fun p => firstResizedWidth 2 (openedVideo envLengths p))).sum :=
  concat_writer_params envLengths "a" ["b", "c"] (smallVideo 10) "out.mp4" 2
    false rfl
    (by
      intro p hp
      simp only [List.mem_cons, List.not_mem_nil, or_false] at hp
      rcases hp with h | h | h
      · exact h ▸ ⟨smallVideo 10, rfl, unitFrame, List.replicate 9 unitFrame,
          by decide, by decide⟩
      · exact h ▸ ⟨smallVideo 12, rfl, unitFrame, List.replicate 11 unitFrame,
          by decide, by decide⟩
      · exact h ▸ ⟨smallVideo 8, rfl, unitFrame, List.replicate 7 unitFrame,
          by decide, by decide⟩)
    (Or.inl rfl)

/-! ## Claim C1 -/

set_option maxRecDepth 100000 in
/-- Claim C1 is violated by the code (code bug): two exit paths leak handles.
First conjunct: when the first source opens but yields no first frame, the
`return False` at line 267 runs with NO cleanup and all three decode handles
stay open.  Second conjunct: when an exception is raised in the main loop
after the writer exists, the `except` handler (lines 347-352) releases only
the decode handles, and the encode handle stays open. -/
theorem concat_leaks_handles :
    ((concatenate_videos_horizontally envEmptyFirst ["a", "b", "c"] "out.mp4"
        320 false).retval = false ∧
      countOpen (concatenate_videos_horizontally envEmptyFirst ["a", "b", "c"]
        "out.mp4" 320 false).caps = 3) ∧
    ((concatenate_videos_horizontally envBadSecondFrame ["a", "b", "c"]
        "out.mp4" 320 false).retval = false ∧
      countOpen (concatenate_videos_horizontally envBadSecondFrame
        ["a", "b", "c"] "out.mp4" 320 false).caps = 0 ∧
      (concatenate_videos_horizontally envBadSecondFrame ["a", "b", "c"]
        "out.mp4" 320 false).writer.map Writer.opened = some true) := by
  decide

/-! ## Claim C9 -/

/-- Claim C9: on the files `a_ours, a_warped, b_ours, b_unknown_thing`
(processed in that order, so the typed slot "ours" of key `b` is filled
first), the matcher resolves the unknown file of `b` to the complementary
role "warped"; both pairs are complete and no file is left unmatched. -/
theorem find_pairs_c9_scenario :
    find_pairs_in_directory pairFilesC9 = .ok pairsC9 ∧
    dictGet ((dictGet pairsC9 "b").getD []) "warped" =
      some "b_unknown_thing.mp4" ∧
    (pairsC9.all (fun kv => dictHas kv.2 "ours" && dictHas kv.2 "warped"))
      = true ∧
    unmatchedVideos pairFilesC9 pairsC9 = [] := by
  refine ⟨rfl, by decide, by decide, by decide⟩

/-! ## Claim C10 -/

/-- Claim C10: when a key currently holds only an "unknown" entry and a file
tagged "ours" (respectively "warped") arrives for that key, the matcher sets
BOTH typed slots to the newly arrived file and deletes the "unknown" entry,
so the earlier unknown file is discarded from the accumulator. -/
theorem pairStep_unknown_then_typed (pairs : Pairs) (key u v : String)
    (hacc : dictGet pairs key = some [("unknown", u)])
    (hkey : normalize_name (stem v) = key) :
    (strHasSub v "our" = true →
      pairStep pairs v = .ok (dictSet pairs key [("ours", v), ("warped", v)])) ∧
    (strHasSub v "our" = false → strHasSub v "warped" = true →
      pairStep pairs v = .ok (dictSet pairs key [("warped", v), ("ours", v)])) := by
  have hhas : dictHas pairs key = true := dictHas_of_dictGet pairs key _ hacc
  constructor
  · intro hour
    simp only [pairStep, hkey, hour, if_true, hhas, Bool.not_true,
      Bool.false_eq_true, if_false, hacc, Option.getD_some]
    simp [dictSet, dictHas, dictDel]
  · intro hour hwarped
    simp only [pairStep, hkey, hour, hwarped, if_true, Bool.false_eq_true,
      if_false, hhas, Bool.not_true, hacc, Option.getD_some]
    simp [dictSet, dictHas, dictDel]

/-- Witness for C10: a key holding only the unknown file `b_clip.mp4`
receives `b_our.mp4` (respectively `b_warped.mp4`) and both typed slots are
set to the arriving file, with the unknown entry deleted. -/
theorem pairStep_unknown_then_typed_witness :
    (pairStep [("b", [("unknown", "b_clip.mp4")])] "b_our.mp4" =
      .ok (dictSet [("b", [("unknown", "b_clip.mp4")])] "b"
        [("ours", "b_our.mp4"), ("warped", "b_our.mp4")])) ∧
    (pairStep [("b", [("unknown", "b_clip.mp4")])] "b_warped.mp4" =
      .ok (dictSet [("b", [("unknown", "b_clip.mp4")])] "b"
        [("warped", "b_warped.mp4"), ("ours", "b_warped.mp4")])) :=
  ⟨(pairStep_unknown_then_typed [("b", [("unknown", "b_clip.mp4")])] "b"
      "b_clip.mp4" "b_our.mp4" (by decide) (by decide)).1 (by decide),
   (pairStep_unknown_then_typed [("b", [("unknown", "b_clip.mp4")])] "b"
      "b_clip.mp4" "b_warped.mp4" (by decide) (by decide)).2 (by decide)
      (by decide)⟩

end FileManager
